import Mathlib

/-!
# Verification of the parts-service Lambda handler

Shallow embedding of `src/parts_service/lambda_handler.py` (Python) and of
the managed-API (AppSync) adapter layer that the repository's tests import
but whose implementation is not part of the `src` tree (those definitions
are modelled from the spec and are marked as such).

Modelling conventions:
* Python values are the inductive `Val` (JSON-like).  Python floats are
  represented by exact rationals; the decimal string forms exercised here
  ("5.5" etc.) are exactly representable, so no rounding is modelled.
* Python dicts are association lists in insertion order; the Python
  invariant that keys are distinct is carried as a hypothesis where needed.
* Exceptions are the `PyExc` error channel of an explicit `Except` value;
  each `try/except` block of the source becomes a wrapper that pattern
  matches on the error exactly as the `except` clauses do.
* The DynamoDB table, the current timestamp (`get_current_timestamp`) and
  the fresh UUID (`uuid.uuid4`) live in the explicit state `Db`; backend
  communication failures (botocore `ClientError`) are injected through the
  `fail*` fields, carrying the backend's error detail string.
* `json.dumps`/`json.loads` round-trips are folded away: a response body is
  stored as the `Val` it encodes.  An inbound `body` string is modelled by
  what `json.loads` does to it (`BodyV`).
* Table-name resolution (`get_table_name`) is configuration plumbing that
  the spec scopes out; it is not modelled.
-/

/-- An exact decimal number `m / 10^e`, canonical (trailing zeros of the
fraction stripped).  This represents the Python floats the numeric-string
coercion can produce: every such float comes from a short decimal literal,
which IEEE-754 doubles and this type both represent faithfully (e.g. `5.5`
is `⟨55, 1⟩`). -/
structure Dec where
  m : Int
  e : Nat
deriving Repr, DecidableEq

/-- Strip trailing zeros: the canonical form of `m / 10^e`. -/
def normDec : Int → Nat → Dec
  | m, 0 => ⟨m, 0⟩
  | m, e + 1 => if m % 10 = 0 then normDec (m / 10) e else ⟨m, e + 1⟩

/-- A Python/JSON value, as handled by the Lambda source. -/
inductive Val where
  | vnull : Val
  | vbool : Bool → Val
  | vint : Int → Val
  | vfloat : Dec → Val
  | vstr : String → Val
  | vlist : List Val → Val
  | vobj : List (String × Val) → Val
deriving Repr

/-- A stored DynamoDB item: an attribute map. -/
abbrev Item := List (String × Val)

/-- Lookup in a Python dict / DynamoDB item (first binding wins;
Python dicts never hold duplicate keys). -/
def getVal : List (String × Val) → String → Option Val
  | [], _ => none
  | (k0, v0) :: rest, k => if k0 = k then some v0 else getVal rest k

/-- `k in d` for a Python dict. -/
def hasKey (d : List (String × Val)) (k : String) : Bool :=
  (getVal d k).isSome

/-- Python truthiness of a value (`if not x`). -/
def truthy : Val → Bool
  | .vnull => false
  | .vbool b => b
  | .vint n => n != 0
  | .vfloat q => q.m != 0
  | .vstr s => s.length != 0
  | .vlist xs => !xs.isEmpty
  | .vobj kvs => !kvs.isEmpty

/-- Equality test used for the DynamoDB key condition `Key("PK").eq(x)` and
for the Python `==` comparisons against string literals in the dispatcher.
Key attributes are scalars, so only scalars compare equal; a container never
equals a string, matching both Python and DynamoDB on every comparison the
source performs. -/
def valEqShallow : Val → Val → Bool
  | .vnull, .vnull => true
  | .vbool a, .vbool b => a == b
  | .vint a, .vint b => a == b
  | .vfloat a, .vfloat b => a == b
  | .vstr a, .vstr b => a == b
  | _, _ => false

/-- Python `str()` of the scalars that can reach an f-string in the source
(error messages).  Containers cannot reach those f-strings on any input a
claim concerns; their repr is abstracted. -/
def pyStr : Val → String
  | .vnull => "None"
  | .vbool b => if b then "True" else "False"
  | .vint n => toString n
  | .vfloat q => toString q.m ++ "e-" ++ toString q.e
  | .vstr s => s
  | .vlist _ => "<list>"
  | .vobj _ => "<dict>"

/-- Numeric value of a digit sequence (helper for the `int`/`float`
models).  String utilities here work on the character list so that every
definition reduces inside the kernel. -/
def natOfDigits (cs : List Char) : Nat :=
  cs.foldl (fun acc c => acc * 10 + (c.toNat - 48)) 0

/-- ASCII whitespace, as stripped by Python numeric conversion. -/
def isSpaceChar (c : Char) : Bool :=
  c = Char.ofNat 32 || c = Char.ofNat 9 || c = Char.ofNat 10 || c = Char.ofNat 13

/-- Strip surrounding whitespace. -/
def trimChars (cs : List Char) : List Char :=
  ((cs.dropWhile isSpaceChar).reverse.dropWhile isSpaceChar).reverse

/-- Split a leading `+`/`-` sign off, Python-style. -/
def signSplit : List Char → Int × List Char
  | [] => (1, [])
  | c :: rest =>
    if c = Char.ofNat 45 then (-1, rest)
    else if c = Char.ofNat 43 then (1, rest)
    else (1, c :: rest)

/-- Split a character list at every decimal point. -/
def splitOnDot : List Char → List (List Char)
  | [] => [[]]
  | c :: rest =>
    if c = Char.ofNat 46 then [] :: splitOnDot rest
    else
      match splitOnDot rest with
      | [] => [[c]]
      | p :: ps => (c :: p) :: ps

/-- Model of Python `int(s)` on a string: optional surrounding whitespace,
optional sign, then decimal digits.  (Underscore separators and non-decimal
bases are outside the modelled subset.) -/
def pyIntOfString? (s : String) : Option Int :=
  let p := signSplit (trimChars s.data)
  if p.2.length > 0 && p.2.all Char.isDigit then
    some (p.1 * Int.ofNat (natOfDigits p.2))
  else none

/-- Model of Python `float(s)` on a string, for the plain decimal forms the
coercion path can meet: optional whitespace and sign, digits with at most
one decimal point and at least one digit.  The value is the exact decimal
`Dec`. -/
def pyFloatOfString? (s : String) : Option Dec :=
  let p := signSplit (trimChars s.data)
  match splitOnDot p.2 with
  | [a] =>
    if a.length > 0 && a.all Char.isDigit then
      some (normDec (p.1 * Int.ofNat (natOfDigits a)) 0)
    else none
  | [a, b] =>
    if (a.length + b.length > 0) && a.all Char.isDigit && b.all Char.isDigit then
      some (normDec (p.1 * Int.ofNat (natOfDigits a * 10 ^ b.length + natOfDigits b)) b.length)
    else none
  | _ => none

/-! ## Validator (`validate_part_data` and helpers) -/

/-- The declared type of a schema field (`valid_fields` in the source). -/
inductive FieldTy where
  | fstr : FieldTy
  | fnum : FieldTy
  | flist : FieldTy
deriving Repr, DecidableEq

/-- The `valid_fields` schema of `validate_part_data`, in source order. -/
def valid_fields : List (String × FieldTy) :=
  [("accountId", .fstr),
   ("customerId", .fstr),
   ("locationId", .fstr),
   ("categoryProductId", .fnum),
   ("categoryId", .fnum),
   ("category", .fstr),
   ("segmentId", .fnum),
   ("segment", .fstr),
   ("partTerminologyId", .fnum),
   ("partTerminologyName", .fstr),
   ("additionalFields", .flist)]

/-- Association-list lookup for the schema. -/
def findTy : List (String × FieldTy) → String → Option FieldTy
  | [], _ => none
  | (k0, t) :: rest, k => if k0 = k then some t else findTy rest k

/-- Declared type of a field name, if it is a schema field
(`field not in valid_fields` in the source). -/
def lookupTy (f : String) : Option FieldTy :=
  findTy valid_fields f

/-- The field names granted numeric-string coercion in the source. -/
def numericFields : List String :=
  ["categoryProductId", "categoryId", "segmentId", "partTerminologyId"]

/-- `isinstance(value, expected_type)`.  Python `bool` is a subclass of
`int`, so booleans satisfy the numeric `(int, float)` check. -/
def matchTy : FieldTy → Val → Bool
  | .fstr, .vstr _ => true
  | .fnum, .vint _ => true
  | .fnum, .vfloat _ => true
  | .fnum, .vbool _ => true
  | .flist, .vlist _ => true
  | _, _ => false

/-- `__name__` of the expected type, for the type-mismatch message. -/
def tyName : FieldTy → String
  | .fstr => "str"
  | .fnum => "number"
  | .flist => "list"

/-- `validate_required_fields`: error message lists the missing fields in
order. -/
def validate_required_fields (data : List (String × Val)) (required : List String) :
    Except String Unit :=
  let missing := required.filter (fun f => !hasKey data f)
  if missing.isEmpty then .ok ()
  else .error ("Missing required fields: " ++ String.intercalate ", " missing)

/-- `validate_additional_fields`: each element must be a dict containing
`fieldName` and `codedValue`. -/
def validate_additional_fields : List Val → Except String Unit
  | [] => .ok ()
  | f :: rest =>
    match f with
    | .vobj kvs =>
      let missing := ["fieldName", "codedValue"].filter (fun r => !hasKey kvs r)
      if missing.isEmpty then validate_additional_fields rest
      else .error ("Missing required fields in additionalFields: " ++
                   String.intercalate ", " missing)
    | _ => .error "additionalFields must be an array of objects"

/-- The numeric-as-string coercion branch of `validate_part_data`:
`float(value) if "." in str(value) else int(value)`, with parse failure
(Python `ValueError`/`TypeError`) becoming the validation error.  A value
that is not a string always fails both conversions. -/
def coerceNumeric (f : String) (v : Val) : Except String Val :=
  match v with
  | .vstr s =>
    if s.data.contains (Char.ofNat 46) then
      match pyFloatOfString? s with
      | some q => .ok (.vfloat q)
      | none => .error ("Field " ++ f ++ " must be a number")
    else
      match pyIntOfString? s with
      | some n => .ok (.vint n)
      | none => .error ("Field " ++ f ++ " must be a number")
  | _ => .error ("Field " ++ f ++ " must be a number")

/-- The `for field, value in data.items()` loop of `validate_part_data`,
building `cleaned_data` in iteration order.  Unknown fields are skipped;
the `additionalFields` sub-check runs after the entry is accepted. -/
def processFields : List (String × Val) → Except String (List (String × Val))
  | [] => .ok []
  | (f, v) :: rest =>
    match lookupTy f with
    | none => processFields rest
    | some ty =>
      let step : Except String Val :=
        if matchTy ty v then .ok v
        else if f ∈ numericFields then coerceNumeric f v
        else .error ("Field " ++ f ++ " must be of type " ++ tyName ty)
      match step with
      | .error e => .error e
      | .ok pv =>
        let extra : Except String Unit :=
          if (f == "additionalFields") && truthy v then
            match v with
            | .vlist xs => validate_additional_fields xs
            | _ => .ok ()
          else .ok ()
        match extra with
        | .error e => .error e
        | .ok () =>
          match processFields rest with
          | .error e => .error e
          | .ok tail => .ok ((f, pv) :: tail)

/-- `validate_part_data(data, is_update)`: required-field check in create
mode, then the field loop. -/
def validate_part_data (data : List (String × Val)) (is_update : Bool) :
    Except String (List (String × Val)) :=
  match (if is_update then .ok () else
          validate_required_fields data
            ["accountId", "category", "segment", "partTerminologyName"]) with
  | .error e => .error e
  | .ok () => processFields data

/-! ## Exceptions, state and storage primitives -/

/-- The exceptions that can cross a `try` boundary in the source. -/
inductive PyExc where
  | validation : String → PyExc
  | jsonDecode : PyExc
  | clientError : String → PyExc
  | other : String → PyExc
deriving Repr

/-- The explicit state of an invocation: the physical table, the current
timestamp, the UUID `uuid.uuid4()` would yield, and injected backend
failures (`some detail` makes the corresponding DynamoDB call raise a
`ClientError` carrying that backend detail). -/
structure Db where
  items : List Item
  now : String
  freshId : String
  failQuery : Option String
  failPut : Option String
  failUpdate : Option String

/-- Live items under a partition key: `Key("PK").eq(pk)` with
`Attr("deletedAt").not_exists()`, in table order. -/
def queryItems (db : Db) (pk : Val) : List Item :=
  db.items.filter (fun it =>
    (match getVal it "PK" with
     | some p => valEqShallow p pk
     | none => false) && !hasKey it "deletedAt")

/-- `table.query(...)` of the source, with injected `ClientError`. -/
def tbl_query (db : Db) (pk : Val) : Except PyExc (List Item) :=
  match db.failQuery with
  | some detail => .error (.clientError detail)
  | none => .ok (queryItems db pk)

/-- `get_part_by_uuid`: first live item for the key, or `None`; a
`ClientError` is logged and re-raised. -/
def get_part_by_uuid (db : Db) (pk : Val) : Except PyExc (Option Item) :=
  match tbl_query db pk with
  | .error e => .error e
  | .ok items => .ok items.head?

/-- Pure view of the same lookup (used to state theorems). -/
def fetchLive (db : Db) (pk : Val) : Option Item :=
  (queryItems db pk).head?

/-- Does an item match the `Key={"PK": pk, "SK": sk}` of an `update_item`? -/
def keyMatch (it : Item) (pk sk : Val) : Bool :=
  (match getVal it "PK" with
   | some p => valEqShallow p pk
   | none => false) &&
  (match getVal it "SK" with
   | some s => valEqShallow s sk
   | none => false)

/-- Dict assignment `d[k] = v`: replace in place, else append. -/
def setAttr : Item → String → Val → Item
  | [], k, v => [(k, v)]
  | (k0, v0) :: rest, k, v =>
    if k0 = k then (k0, v) :: rest else (k0, v0) :: setAttr rest k v

/-- Apply a list of attribute assignments in order. -/
def setAttrs (it : Item) : List (String × Val) → Item
  | [] => it
  | (k, v) :: rest => setAttrs (setAttr it k v) rest

/-- `table.put_item(Item=item)`: replaces any item with the same key. -/
def tbl_put (db : Db) (item : Item) : Except PyExc Db :=
  match db.failPut with
  | some detail => .error (.clientError detail)
  | none =>
    let pk := (getVal item "PK").getD .vnull
    let sk := (getVal item "SK").getD .vnull
    .ok { db with items := (db.items.filter (fun it => !keyMatch it pk sk)) ++ [item] }

/-! ## Update expression (reserved-keyword aliasing) -/

/-- How a `SET` clause of the update expression names its target: by the
literal attribute name, or through a `#alias` bound in
`ExpressionAttributeNames`. -/
inductive UpdTarget where
  | raw : String → UpdTarget
  | alias : String → UpdTarget
deriving Repr, DecidableEq

/-- One `target = :placeholder` clause of the `SET` expression.  The update
expression string of the source is represented by its clause list. -/
structure UpdClause where
  target : UpdTarget
  placeholder : String
deriving Repr, DecidableEq

/-- The arguments handed to `table.update_item`: the clause list of
`UpdateExpression`, plus `ExpressionAttributeNames` and
`ExpressionAttributeValues`. -/
structure UpdateParams where
  clauses : List UpdClause
  names : List (String × String)
  values : List (String × Val)

/-- `reserved_keywords` of `update_part`. -/
def reserved_keywords : List String :=
  ["segment", "category", "status", "name", "size", "type", "data",
   "count", "group", "order", "range", "key", "value", "time", "date"]

/-- `field.lower()`, on the character list so it reduces in the kernel. -/
def lowerStr (s : String) : String :=
  String.mk (s.data.map Char.toLower)

/-- The clause the loop body of `update_part` appends for one field. -/
def clauseFor (f : String) : UpdClause :=
  if lowerStr f ∈ reserved_keywords then ⟨.alias ("#" ++ f), ":" ++ f⟩
  else ⟨.raw f, ":" ++ f⟩

/-- Clauses appended by the loop, in field order. -/
def buildClauses : List (String × Val) → List UpdClause
  | [] => []
  | (f, _) :: rest => clauseFor f :: buildClauses rest

/-- `ExpressionAttributeNames` entries, one per reserved field. -/
def buildNames : List (String × Val) → List (String × String)
  | [] => []
  | (f, _) :: rest =>
    if lowerStr f ∈ reserved_keywords then ("#" ++ f, f) :: buildNames rest
    else buildNames rest

/-- `ExpressionAttributeValues` entries appended by the loop. -/
def buildValues : List (String × Val) → List (String × Val)
  | [] => []
  | (f, v) :: rest => (":" ++ f, v) :: buildValues rest

/-- The update parameters of `update_part`: the expression starts as
`SET updatedAt = :updated_at` and the loop appends one clause per validated
field. -/
def buildUpdateParams (validated : List (String × Val)) (now : String) : UpdateParams :=
  { clauses := ⟨.raw "updatedAt", ":updated_at"⟩ :: buildClauses validated,
    names := buildNames validated,
    values := (":updated_at", .vstr now) :: buildValues validated }

/-- String lookup in an association list (`ExpressionAttributeNames`). -/
def lookupStr : List (String × String) → String → Option String
  | [], _ => none
  | (k0, v0) :: rest, k => if k0 = k then some v0 else lookupStr rest k

/-- Resolve one clause against the names and values maps. -/
def resolveClause (p : UpdateParams) (c : UpdClause) : Option (String × Val) :=
  let name? := match c.target with
    | .raw n => some n
    | .alias a => lookupStr p.names a
  match name?, getVal p.values c.placeholder with
  | some n, some v => some (n, v)
  | _, _ => none

/-- Resolve a clause list in order, failing if any clause fails. -/
def resolveClauses (p : UpdateParams) : List UpdClause → Option (List (String × Val))
  | [] => some []
  | c :: rest =>
    match resolveClause p c, resolveClauses p rest with
    | some a, some tail => some (a :: tail)
    | _, _ => none

/-- Resolve all clauses; DynamoDB rejects an expression referencing an
unbound alias or placeholder. -/
def resolveParams (p : UpdateParams) : Option (List (String × Val)) :=
  resolveClauses p p.clauses

/-- `table.update_item`: on success the assignments are applied to every
item matching the key (exactly one in a real table). -/
def tbl_update (db : Db) (pk sk : Val) (p : UpdateParams) : Except PyExc Db :=
  match db.failUpdate with
  | some detail => .error (.clientError detail)
  | none =>
    match resolveParams p with
    | none => .error (.clientError "ValidationException")
    | some asgs =>
      .ok { db with items := db.items.map (fun it =>
              if keyMatch it pk sk then setAttrs it asgs else it) }

/-! ## Events and responses -/

/-- What `json.loads` does to the string stored under `"body"`:
a string parsing to `v`, a string it rejects (`JSONDecodeError`), or a
non-string value (`TypeError`). -/
inductive BodyV where
  | jsonStr : Val → BodyV
  | badStr : BodyV
  | nonStr : BodyV

/-- An inbound Lambda event: the keys the source reads, each `Option`
because `event.get` distinguishes absent keys from `None` values. -/
structure Event where
  httpMethod : Option Val
  requestContext : Option Val
  pathParameters : Option Val
  body : Option BodyV
  info : Option Val
  arguments : Option Val

/-- An event with no keys set. -/
def Event.empty : Event :=
  { httpMethod := none, requestContext := none, pathParameters := none,
    body := none, info := none, arguments := none }

/-- The internal gateway-style response `{statusCode, body}`; `body` holds
the value the JSON body string encodes. -/
structure Response where
  statusCode : Int
  body : Val
deriving Repr

/-- A `{statusCode, body: {"error": msg}}` response. -/
def errResp (code : Int) (msg : String) : Response :=
  ⟨code, .vobj [("error", .vstr msg)]⟩

/-- The generic 500 body: internal detail never reaches the caller. -/
def internalErrorResp : Response :=
  errResp 500 "Internal server error"

/-- A single-quote character, for messages quoting a word. -/
def quoteChar : String := String.singleton (Char.ofNat 39)

/-- The `Missing 'part' in request body` message. -/
def missingPartMsg : String :=
  "Missing " ++ quoteChar ++ "part" ++ quoteChar ++ " in request body"

/-- `dict.get(k)` on a value: `None` when absent, `AttributeError` when the
receiver is not a dict. -/
def pyGet (v : Val) (k : String) : Except PyExc Val :=
  match v with
  | .vobj kvs => .ok ((getVal kvs k).getD .vnull)
  | _ => .error (.other "AttributeError")

/-- `dict.get(k, d)` on a value, with the same `AttributeError` behavior. -/
def pyGetD (v : Val) (k : String) (d : Val) : Except PyExc Val :=
  match v with
  | .vobj kvs => .ok ((getVal kvs k).getD d)
  | _ => .error (.other "AttributeError")

/-- `json.loads(event.get("body", "{}"))`. -/
def parseBody (ev : Event) : Except PyExc Val :=
  match ev.body with
  | none => .ok (.vobj [])
  | some (.jsonStr v) => .ok v
  | some .badStr => .error .jsonDecode
  | some .nonStr => .error (.other "TypeError")

/-- `path_params = event.get("pathParameters", {})` followed by
`path_params.get("uuid") if path_params else None`. -/
def uuidFromPath (ev : Event) : Except PyExc Val :=
  let pp := (ev.pathParameters).getD (.vobj [])
  if truthy pp then pyGet pp "uuid" else .ok .vnull

/-- `validate_part_data` as called on the untrusted `part` payload: the
source assumes a dict and a non-dict raises (`.items()` on it fails with
`AttributeError`); a validation failure raises `PartValidationError`. -/
def validatePartVal (part : Val) (is_update : Bool) :
    Except PyExc (List (String × Val)) :=
  match part with
  | .vobj kvs =>
    match validate_part_data kvs is_update with
    | .ok r => .ok r
    | .error m => .error (.validation m)
  | _ => .error (.other "AttributeError")

/-! ## CRUD operations -/

/-- The `try` block of `create_part`. -/
def create_part_inner (ev : Event) (db : Db) : Except PyExc Response × Db :=
  match parseBody ev with
  | .error e => (.error e, db)
  | .ok bodyv =>
  match pyGet bodyv "part" with
  | .error e => (.error e, db)
  | .ok part =>
  if !truthy part then (.ok (errResp 400 missingPartMsg), db) else
  match validatePartVal part false with
  | .error e => (.error e, db)
  | .ok validated =>
  match getVal validated "accountId" with
  | none => (.error (.other "KeyError"), db)
  | some acct =>
  let item : Item :=
    [("PK", .vstr db.freshId), ("SK", acct), ("createdAt", .vstr db.now)] ++ validated
  match tbl_put db item with
  | .error e => (.error e, db)
  | .ok db2 =>
    (.ok ⟨201, .vobj [("message", .vstr "Part created successfully"),
                      ("uuid", .vstr db.freshId),
                      ("part", .vobj item)]⟩, db2)

/-- `create_part`: the `except` clauses translate `PartValidationError` to
400, `JSONDecodeError` to 400, and anything else to the generic 500. -/
def create_part (ev : Event) (db : Db) : Response × Db :=
  match create_part_inner ev db with
  | (.ok r, db2) => (r, db2)
  | (.error (.validation m), db2) => (errResp 400 m, db2)
  | (.error .jsonDecode, db2) => (errResp 400 "Invalid JSON in request body", db2)
  | (.error _, db2) => (internalErrorResp, db2)

/-- The `try` block of `get_part`. -/
def get_part_inner (ev : Event) (db : Db) : Except PyExc Response × Db :=
  match uuidFromPath ev with
  | .error e => (.error e, db)
  | .ok u =>
  if !truthy u then (.ok (errResp 400 "Missing UUID in path parameters"), db) else
  match get_part_by_uuid db u with
  | .error e => (.error e, db)
  | .ok none => (.ok (errResp 404 "Part not found"), db)
  | .ok (some it) => (.ok ⟨200, .vobj [("part", .vobj it)]⟩, db)

/-- `get_part`: a single `except Exception` clause yields the generic 500. -/
def get_part (ev : Event) (db : Db) : Response × Db :=
  match get_part_inner ev db with
  | (.ok r, db2) => (r, db2)
  | (.error _, db2) => (internalErrorResp, db2)

/-- The `try` block of `update_part`. -/
def update_part_inner (ev : Event) (db : Db) : Except PyExc Response × Db :=
  match uuidFromPath ev with
  | .error e => (.error e, db)
  | .ok u =>
  if !truthy u then (.ok (errResp 400 "Missing UUID in path parameters"), db) else
  match parseBody ev with
  | .error e => (.error e, db)
  | .ok bodyv =>
  match pyGet bodyv "part" with
  | .error e => (.error e, db)
  | .ok part =>
  if !truthy part then (.ok (errResp 400 missingPartMsg), db) else
  match get_part_by_uuid db u with
  | .error e => (.error e, db)
  | .ok none => (.ok (errResp 404 "Part not found or already deleted"), db)
  | .ok (some existing) =>
  match validatePartVal part true with
  | .error e => (.error e, db)
  | .ok validated =>
  let params := buildUpdateParams validated db.now
  match getVal existing "SK" with
  | none => (.error (.other "KeyError"), db)
  | some sk =>
  match tbl_update db u sk params with
  | .error e => (.error e, db)
  | .ok db2 =>
  match get_part_by_uuid db2 u with
  | .error e => (.error e, db2)
  | .ok updated =>
    (.ok ⟨200, .vobj [("message", .vstr "Part updated successfully"),
                      ("part", match updated with
                               | some it => .vobj it
                               | none => .vnull)]⟩, db2)

/-- `update_part`: same `except` ladder as `create_part`. -/
def update_part (ev : Event) (db : Db) : Response × Db :=
  match update_part_inner ev db with
  | (.ok r, db2) => (r, db2)
  | (.error (.validation m), db2) => (errResp 400 m, db2)
  | (.error .jsonDecode, db2) => (errResp 400 "Invalid JSON in request body", db2)
  | (.error _, db2) => (internalErrorResp, db2)

/-- The `try` block of `delete_part`: the soft delete issues
`SET deletedAt = :deleted_at`. -/
def delete_part_inner (ev : Event) (db : Db) : Except PyExc Response × Db :=
  match uuidFromPath ev with
  | .error e => (.error e, db)
  | .ok u =>
  if !truthy u then (.ok (errResp 400 "Missing UUID in path parameters"), db) else
  match get_part_by_uuid db u with
  | .error e => (.error e, db)
  | .ok none => (.ok (errResp 404 "Part not found or already deleted"), db)
  | .ok (some existing) =>
  let params : UpdateParams :=
    { clauses := [⟨.raw "deletedAt", ":deleted_at"⟩],
      names := [],
      values := [(":deleted_at", .vstr db.now)] }
  match getVal existing "SK" with
  | none => (.error (.other "KeyError"), db)
  | some sk =>
  match tbl_update db u sk params with
  | .error e => (.error e, db)
  | .ok db2 =>
    (.ok (⟨200, .vobj [("message", .vstr "Part deleted successfully")]⟩ : Response), db2)

/-- `delete_part`: a single `except Exception` clause yields the generic
500. -/
def delete_part (ev : Event) (db : Db) : Response × Db :=
  match delete_part_inner ev db with
  | (.ok r, db2) => (r, db2)
  | (.error _, db2) => (internalErrorResp, db2)

/-! ## Dispatcher (`lambda_handler`) -/

/-- `event.get("httpMethod") or
event.get("requestContext", {}).get("http", {}).get("method")`:
the left operand wins when truthy; otherwise the nested access runs (and
raises `AttributeError` when `requestContext` or its `http` member is a
non-dict value such as `None`). -/
def extract_http_method (ev : Event) : Except PyExc Val :=
  let hm := (ev.httpMethod).getD .vnull
  if truthy hm then .ok hm
  else
    let rc := (ev.requestContext).getD (.vobj [])
    match pyGetD rc "http" (.vobj []) with
    | .error e => .error e
    | .ok h => pyGet h "method"

/-- The `try` block of `lambda_handler`: extract the method, 400 when it is
missing, route the four methods, 405 otherwise. -/
def lambda_handler_inner (ev : Event) (db : Db) : Except PyExc Response × Db :=
  match extract_http_method ev with
  | .error e => (.error e, db)
  | .ok m =>
    if !truthy m then
      (.ok (errResp 400 "HTTP method not found in event"), db)
    else if valEqShallow m (.vstr "GET") then
      (let r := get_part ev db; (.ok r.1, r.2))
    else if valEqShallow m (.vstr "POST") then
      (let r := create_part ev db; (.ok r.1, r.2))
    else if valEqShallow m (.vstr "PUT") then
      (let r := update_part ev db; (.ok r.1, r.2))
    else if valEqShallow m (.vstr "DELETE") then
      (let r := delete_part ev db; (.ok r.1, r.2))
    else
      (.ok (errResp 405 ("Method " ++ pyStr m ++ " not allowed")), db)

/-- `lambda_handler`: the outermost `except Exception` catches anything not
already translated and returns the generic 500.  The function is total: no
exception ever propagates to the caller. -/
def lambda_handler (ev : Event) (db : Db) : Response × Db :=
  match lambda_handler_inner ev db with
  | (.ok r, db2) => (r, db2)
  | (.error _, db2) => (internalErrorResp, db2)

/-! ## Managed-API (AppSync) adapter

The repository's tests import `is_appsync_event`, `parse_appsync_event`,
`format_appsync_response` and a dispatcher that routes managed-API events,
but their implementation is not part of the `src` tree.  The definitions
below are therefore modelled from the spec (sections 4.4 and 4.5). -/

/-- Modelled from the spec: the detector — an inbound event is managed-API
style if it carries an operation-descriptor object (`info`) with a
field-name and parent-type-name. -/
def is_appsync_event (ev : Event) : Bool :=
  match ev.info with
  | some (.vobj kvs) => hasKey kvs "fieldName" && hasKey kvs "parentTypeName"
  | _ => false

/-- Modelled from the spec: the managed-API → internal mapper.  Field names
map `getPart→GET`, `createPart→POST`, `updatePart→PUT`, `deletePart→DELETE`;
any other field name fails with `UnsupportedOperation` (a 400 before CRUD
dispatch).  Arguments `uuid`/`id` become the path identifier and
`part`/`input` the JSON-encoded body payload; the request context records
the managed-API origin. -/
def parse_appsync_event (ev : Event) : Except String (String × Event) :=
  let info := (ev.info).getD (.vobj [])
  let fieldName := match info with
    | .vobj kvs => (getVal kvs "fieldName").getD .vnull
    | _ => .vnull
  let method? : Option String :=
    if valEqShallow fieldName (.vstr "getPart") then some "GET"
    else if valEqShallow fieldName (.vstr "createPart") then some "POST"
    else if valEqShallow fieldName (.vstr "updatePart") then some "PUT"
    else if valEqShallow fieldName (.vstr "deletePart") then some "DELETE"
    else none
  match method? with
  | none => .error ("Unsupported AppSync operation: " ++ pyStr fieldName)
  | some m =>
    let args := match ev.arguments with
      | some (.vobj kvs) => kvs
      | _ => []
    let uuid? := (getVal args "uuid").orElse (fun _ => getVal args "id")
    let part? := (getVal args "part").orElse (fun _ => getVal args "input")
    let iev : Event :=
      { httpMethod := some (.vstr m),
        requestContext := some (.vobj [("appsync", .vbool true)]),
        pathParameters := uuid?.map (fun u => .vobj [("uuid", u)]),
        body := part?.map (fun p => .jsonStr (.vobj [("part", p)])),
        info := none,
        arguments := none }
    .ok (m, iev)

/-- The managed-API error envelope `{error: {message, statusCode}}`. -/
def appsyncError (msg : String) (code : Int) : Val :=
  .vobj [("error", .vobj [("message", .vstr msg), ("statusCode", .vint code)])]

/-- The envelope reported for an internal body the mapper cannot unwrap. -/
def invalidFormatEnvelope : Val :=
  appsyncError "Invalid response format" 500

/-- Modelled from the spec: the internal → managed-API mapper.  On a 2xx
response it unwraps the JSON body: GET returns the `part` object, PUT the
`{message, part}` composite, POST the `{uuid, message, part}` composite,
DELETE the `{message}` body with `success: true` merged in.  On any non-2xx
status it returns the error envelope instead of raising; a malformed
internal body degrades to the `Invalid response format` envelope. -/
def format_appsync_response (r : Response) (op : String) : Val :=
  if 200 ≤ r.statusCode && r.statusCode < 300 then
    match r.body with
    | .vobj kvs =>
      if op == "DELETE" then .vobj (kvs ++ [("success", .vbool true)])
      else if op == "GET" then (getVal kvs "part").getD invalidFormatEnvelope
      else .vobj kvs
    | _ => invalidFormatEnvelope
  else
    let msg := match r.body with
      | .vobj kvs =>
        match getVal kvs "error" with
        | some (.vstr m) => m
        | _ => "Invalid response format"
      | _ => "Invalid response format"
    appsyncError msg r.statusCode

/-- The outbound shape: a gateway `{statusCode, body}` response or a raw
managed-API JSON value. -/
inductive OutResp where
  | gw : Response → OutResp
  | api : Val → OutResp

/-- Modelled from the spec: the full dispatcher including the managed-API
branch missing from `src`.  A managed-API event is mapped to an internal
request, routed through the method dispatcher, and its internal response
re-shaped into the managed-API output; an unsupported field name surfaces
as the 400 error envelope.  A gateway-style event takes the `src`
`lambda_handler` path unchanged. -/
def lambda_handler_full (ev : Event) (db : Db) : OutResp × Db :=
  if is_appsync_event ev then
    match parse_appsync_event ev with
    | .error msg => (.api (appsyncError msg 400), db)
    | .ok (op, iev) =>
      let r := lambda_handler iev db
      (.api (format_appsync_response r.1 op), r.2)
  else
    let r := lambda_handler ev db
    (.gw r.1, r.2)

/-! ## General lemmas about the model -/

theorem truthy_vstr_of_ne (u : String) (h : u ≠ "") : truthy (.vstr u) = true := by
  simp only [truthy, bne_iff_ne, ne_eq]
  exact fun hl => h (String.ext (List.length_eq_zero.mp hl))

theorem truthy_vobj (kvs : List (String × Val)) :
    truthy (.vobj kvs) = !kvs.isEmpty := rfl

theorem valEqShallow_vstr_iff (p : Val) (u : String) :
    valEqShallow p (.vstr u) = true ↔ p = .vstr u := by
  cases p <;> simp [valEqShallow]

theorem getVal_setAttr_self (it : Item) (k : String) (v : Val) :
    getVal (setAttr it k v) k = some v := by
  induction it with
  | nil => simp [setAttr, getVal]
  | cons kv rest ih =>
    by_cases h : kv.1 = k
    · simp [setAttr, h, getVal]
    · simp [setAttr, h, getVal, ih]

theorem getVal_setAttr_ne (it : Item) (k k2 : String) (v : Val) (h : k ≠ k2) :
    getVal (setAttr it k v) k2 = getVal it k2 := by
  induction it with
  | nil => simp [setAttr, getVal, h]
  | cons kv rest ih =>
    by_cases h2 : kv.1 = k
    · simp [setAttr, h2, getVal, h]
    · simp [setAttr, h2, getVal, ih]

theorem getVal_setAttrs_notMem (it : Item) (asgs : List (String × Val)) (k : String)
    (h : k ∉ asgs.map Prod.fst) :
    getVal (setAttrs it asgs) k = getVal it k := by
  induction asgs generalizing it with
  | nil => simp [setAttrs]
  | cons a rest ih =>
    simp only [List.map_cons, List.mem_cons, not_or] at h
    simp only [setAttrs]
    rw [ih _ h.2, getVal_setAttr_ne _ _ _ _ (fun he => h.1 he.symm)]

theorem getVal_setAttrs_head (it : Item) (k : String) (v : Val)
    (rest : List (String × Val)) (h : k ∉ rest.map Prod.fst) :
    getVal (setAttrs it ((k, v) :: rest)) k = some v := by
  simp only [setAttrs]
  rw [getVal_setAttrs_notMem _ _ _ h, getVal_setAttr_self]

theorem string_append_cancel_left (s t u : String) (h : s ++ t = s ++ u) : t = u := by
  cases s; cases t; cases u
  simp only [HAppend.hAppend, Append.append, String.append] at h
  have h2 := congrArg String.data h
  simp only [String.data] at h2
  exact congrArg String.mk (List.append_cancel_left h2)

theorem findTy_isSome_mem (l : List (String × FieldTy)) (k : String)
    (h : (findTy l k).isSome) : k ∈ l.map Prod.fst := by
  induction l with
  | nil => simp [findTy] at h
  | cons kv rest ih =>
    by_cases h2 : kv.1 = k
    · simp [List.map_cons, h2.symm]
    · simp only [findTy, h2, if_false] at h
      simp [List.map_cons, ih h]

/-! ## Validator lemmas -/

theorem getVal_filterKeys (data : List (String × Val)) (q : String → Bool) (k : String)
    (hq : q k = true) :
    getVal (data.filter (fun kv => q kv.1)) k = getVal data k := by
  induction data with
  | nil => simp
  | cons kv rest ih =>
    by_cases h2 : kv.1 = k
    · subst h2
      simp [List.filter_cons, hq, getVal]
    · by_cases h3 : q kv.1
      · simp [List.filter_cons, h3, getVal, h2, ih]
      · simp [List.filter_cons, h3, getVal, h2, ih]

theorem processFields_ok_keys (data r : List (String × Val))
    (h : processFields data = .ok r) :
    ∀ k ∈ r.map Prod.fst, (lookupTy k).isSome := by
  induction data generalizing r with
  | nil =>
    simp only [processFields, Except.ok.injEq] at h
    subst h; simp
  | cons kv rest ih =>
    obtain ⟨f, v⟩ := kv
    simp only [processFields] at h
    split at h
    · exact ih r h
    · rename_i ty hty
      split at h
      · simp at h
      · split at h
        · simp at h
        · split at h
          · simp at h
          · rename_i tail htail
            simp only [Except.ok.injEq] at h
            subst h
            intro k hk
            simp only [List.map_cons, List.mem_cons] at hk
            rcases hk with rfl | hk
            · simp [hty]
            · exact ih tail htail k hk

theorem processFields_ok_keys_sublist (data r : List (String × Val))
    (h : processFields data = .ok r) :
    List.Sublist (r.map Prod.fst) (data.map Prod.fst) := by
  induction data generalizing r with
  | nil =>
    simp only [processFields, Except.ok.injEq] at h
    subst h; simp
  | cons kv rest ih =>
    obtain ⟨f, v⟩ := kv
    simp only [processFields] at h
    split at h
    · exact (ih r h).trans (List.sublist_cons_self _ _)
    · split at h
      · simp at h
      · split at h
        · simp at h
        · split at h
          · simp at h
          · rename_i tail htail
            simp only [Except.ok.injEq] at h
            subst h
            simpa using (ih tail htail).cons₂ f

theorem hasKey_filterKeys (data : List (String × Val)) (q : String → Bool) (k : String)
    (hq : q k = true) :
    hasKey (data.filter (fun kv => q kv.1)) k = hasKey data k := by
  simp [hasKey, getVal_filterKeys _ _ _ hq]

theorem processFields_filter (data : List (String × Val)) :
    processFields (data.filter (fun kv => (lookupTy kv.1).isSome)) = processFields data := by
  induction data with
  | nil => rfl
  | cons kv rest ih =>
    obtain ⟨f, v⟩ := kv
    cases hty : lookupTy f with
    | none =>
      simp only [List.filter_cons, hty, Option.isSome_none, Bool.false_eq_true, if_false]
      rw [ih]
      conv_rhs => simp only [processFields, hty]
    | some ty =>
      simp only [List.filter_cons, hty, Option.isSome_some, if_true]
      simp only [processFields, hty, ih]

theorem validate_part_data_filter (data : List (String × Val)) (mode : Bool) :
    validate_part_data (data.filter (fun kv => (lookupTy kv.1).isSome)) mode
      = validate_part_data data mode := by
  unfold validate_part_data
  rw [processFields_filter]
  cases mode with
  | true => rfl
  | false =>
    have hreq : ["accountId", "category", "segment", "partTerminologyName"].filter
          (fun f => !hasKey (data.filter (fun kv => (lookupTy kv.1).isSome)) f)
        = ["accountId", "category", "segment", "partTerminologyName"].filter
          (fun f => !hasKey data f) := by
      apply List.filter_congr
      intro f hf
      fin_cases hf <;>
        exact congrArg Bool.not
          (hasKey_filterKeys data (fun k => (lookupTy k).isSome) _ (by decide))
    simp only [validate_required_fields, hreq]

theorem mem_numericFields_lookupTy (f : String) (h : f ∈ numericFields) :
    lookupTy f = some .fnum := by
  fin_cases h <;> rfl

theorem coerceNumeric_ok_matchTy (f : String) (v pv : Val)
    (h : coerceNumeric f v = .ok pv) : matchTy .fnum pv = true := by
  unfold coerceNumeric at h
  cases v <;> simp at h
  split at h
  · split at h
    · simp only [Except.ok.injEq] at h; subst h; rfl
    · simp at h
  · split at h
    · simp only [Except.ok.injEq] at h; subst h; rfl
    · simp at h

theorem processFields_idem (data r : List (String × Val))
    (h : processFields data = .ok r) :
    processFields r = .ok r := by
  induction data generalizing r with
  | nil =>
    simp only [processFields, Except.ok.injEq] at h
    subst h; rfl
  | cons kv rest ih =>
    obtain ⟨f, v⟩ := kv
    simp only [processFields] at h
    split at h
    · exact ih r h
    · rename_i ty hty
      split at h
      · simp at h
      · rename_i pv hstep
        split at h
        · simp at h
        · rename_i hextra
          split at h
          · simp at h
          · rename_i tail htail
            simp only [Except.ok.injEq] at h
            subst h
            have hstep2 : matchTy ty pv = true := by
              by_cases hm : matchTy ty v
              · rw [if_pos hm] at hstep
                simp only [Except.ok.injEq] at hstep
                subst hstep; exact hm
              · rw [if_neg hm] at hstep
                by_cases hnum : f ∈ numericFields
                · rw [if_pos hnum] at hstep
                  have := mem_numericFields_lookupTy f hnum
                  rw [hty] at this
                  simp only [Option.some.injEq] at this
                  subst this
                  exact coerceNumeric_ok_matchTy f v pv hstep
                · rw [if_neg hnum] at hstep
                  simp at hstep
            have hextra2 :
                (if (f == "additionalFields") && truthy pv then
                   match pv with
                   | Val.vlist xs => validate_additional_fields xs
                   | _ => Except.ok ()
                 else Except.ok ()) = Except.ok () := by
              by_cases haf : f = "additionalFields"
              · have hflist : ty = .flist := by
                  have : lookupTy f = some .flist := by subst haf; rfl
                  rw [hty] at this
                  simp only [Option.some.injEq] at this
                  exact this
                have hpv : pv = v := by
                  by_cases hm : matchTy ty v
                  · rw [if_pos hm] at hstep
                    simp only [Except.ok.injEq] at hstep
                    exact hstep.symm
                  · rw [if_neg hm] at hstep
                    have hnum : f ∉ numericFields := by subst haf; decide
                    rw [if_neg hnum] at hstep
                    simp at hstep
                subst hpv
                exact hextra
              · have : (f == "additionalFields") = false := beq_eq_false_iff_ne.mpr haf
                simp [this]
            simp only [processFields, hty, hstep2, if_true, hextra2, ih tail htail]

/-! ## Claim theorems -/

/-- C5: for each of the numeric fields `categoryProductId`, `categoryId`,
`segmentId`, `partTerminologyId`, the validator maps the string "5" to the
integer 5, maps "5.5" to the float 5.5 (the exact decimal `⟨55, 1⟩`, i.e.
55/10¹), and fails with `ValidationError "Field <name> must be a number"`
on the non-numeric string "abc".  (Stated in update mode, where the
per-field mapping is not preempted by the create-mode required-field
check.) -/
theorem c5_numeric_string_coercion (f : String) (hf : f ∈ numericFields) :
    validate_part_data [(f, .vstr "5")] true = .ok [(f, .vint 5)] ∧
    validate_part_data [(f, .vstr "5.5")] true = .ok [(f, .vfloat ⟨55, 1⟩)] ∧
    validate_part_data [(f, .vstr "abc")] true
      = .error ("Field " ++ f ++ " must be a number") := by
  fin_cases hf <;> exact ⟨rfl, rfl, rfl⟩

/-- Witness for C5 at the concrete field `categoryId`. -/
theorem c5_numeric_string_coercion_witness :
    validate_part_data [("categoryId", .vstr "5")] true
        = .ok [("categoryId", .vint 5)] ∧
    validate_part_data [("categoryId", .vstr "5.5")] true
        = .ok [("categoryId", .vfloat ⟨55, 1⟩)] ∧
    validate_part_data [("categoryId", .vstr "abc")] true
        = .error ("Field " ++ "categoryId" ++ " must be a number") :=
  c5_numeric_string_coercion "categoryId" (by decide)

/-- C8: validation in update mode is idempotent — if update-mode validation
of `m` succeeds with output `r`, then validating `r` again in update mode
succeeds and returns `r` itself, so
`validate(validate(m, Update), Update) = validate(m, Update)`. -/
theorem c8_update_validation_idempotent (m r : List (String × Val))
    (h : validate_part_data m true = .ok r) :
    validate_part_data r true = .ok r := by
  simp only [validate_part_data] at h ⊢
  exact processFields_idem m r h

/-- Witness for C8 on a payload exercising coercion, strings and
`additionalFields`. -/
theorem c8_update_validation_idempotent_witness :
    validate_part_data
      [("categoryId", .vfloat ⟨55, 1⟩), ("category", .vstr "Electronics"),
       ("additionalFields", .vlist [.vobj [("fieldName", .vstr "color"),
                                           ("codedValue", .vstr "red")]])] true
    = .ok [("categoryId", .vfloat ⟨55, 1⟩), ("category", .vstr "Electronics"),
           ("additionalFields", .vlist [.vobj [("fieldName", .vstr "color"),
                                               ("codedValue", .vstr "red")]])] :=
  c8_update_validation_idempotent
    [("categoryId", .vstr "5.5"), ("category", .vstr "Electronics"),
     ("additionalFields", .vlist [.vobj [("fieldName", .vstr "color"),
                                         ("codedValue", .vstr "red")]])]
    _ rfl

/-- C9: in both modes, every key of the validator's output is one of the
eleven schema fields, and keys outside the schema are dropped without
affecting the outcome at all: validating the input restricted to schema
keys gives the identical result (so unknown keys never cause an error and
never appear in the output or in any item built from it). -/
theorem c9_unknown_fields_dropped (m : List (String × Val)) (mode : Bool) :
    (∀ r, validate_part_data m mode = .ok r →
       ∀ k ∈ r.map Prod.fst, k ∈ valid_fields.map Prod.fst) ∧
    validate_part_data (m.filter (fun kv => (lookupTy kv.1).isSome)) mode
      = validate_part_data m mode := by
  constructor
  · intro r h k hk
    simp only [validate_part_data] at h
    split at h
    · simp at h
    · exact findTy_isSome_mem valid_fields k (processFields_ok_keys m r h k hk)
  · exact validate_part_data_filter m mode

/-- Witness for C9: an unknown key `color` is dropped from a create-mode
payload without error. -/
theorem c9_unknown_fields_dropped_witness :
    ("category" ∈ valid_fields.map Prod.fst ∧
     "accountId" ∈ valid_fields.map Prod.fst ∧
     "segment" ∈ valid_fields.map Prod.fst ∧
     "partTerminologyName" ∈ valid_fields.map Prod.fst) ∧
    validate_part_data
        (([("accountId", .vstr "a1"), ("color", .vstr "red"),
           ("category", .vstr "C"), ("segment", .vstr "S"),
           ("partTerminologyName", .vstr "P")] :
            List (String × Val)).filter (fun kv => (lookupTy kv.1).isSome)) false
      = validate_part_data
          [("accountId", .vstr "a1"), ("color", .vstr "red"),
           ("category", .vstr "C"), ("segment", .vstr "S"),
           ("partTerminologyName", .vstr "P")] false := by
  have h := c9_unknown_fields_dropped
    [("accountId", .vstr "a1"), ("color", .vstr "red"),
     ("category", .vstr "C"), ("segment", .vstr "S"),
     ("partTerminologyName", .vstr "P")] false
  refine ⟨?_, h.2⟩
  have hks := h.1
    [("accountId", .vstr "a1"), ("category", .vstr "C"), ("segment", .vstr "S"),
     ("partTerminologyName", .vstr "P")] rfl
  exact ⟨hks "category" (by decide), hks "accountId" (by decide),
         hks "segment" (by decide), hks "partTerminologyName" (by decide)⟩

/-- C10: a create or update request whose JSON body maps `part` to a falsy
value (`{}`, `null`, `false`, ... — equivalently, whose body has no truthy
`part` entry, exactly as when the key is absent) is rejected with
400 `Missing 'part' in request body`; in particular an update with
`part: {}` is rejected before any storage access (the state is returned
unchanged) rather than performing an `updatedAt`-only update. -/
theorem c10_falsy_part_rejected (ev : Event) (db : Db) (kvs : List (String × Val))
    (hbody : ev.body = some (.jsonStr (.vobj kvs)))
    (hfalsy : truthy ((getVal kvs "part").getD .vnull) = false) :
    create_part ev db = (errResp 400 missingPartMsg, db) ∧
    (∀ uv, ev.pathParameters = some (.vobj [("uuid", uv)]) → truthy uv = true →
       update_part ev db = (errResp 400 missingPartMsg, db)) := by
  constructor
  · simp [create_part, create_part_inner, parseBody, hbody, pyGet, hfalsy]
  · intro uv hpath huv
    simp [update_part, update_part_inner, uuidFromPath, hpath, pyGet,
          truthy_vobj, getVal, parseBody, hbody, huv, hfalsy]

/-- Witness for C10: `part: {}` on both operations, at a concrete state. -/
theorem c10_falsy_part_rejected_witness :
    create_part
      { Event.empty with
        pathParameters := some (.vobj [("uuid", .vstr "u1")]),
        body := some (.jsonStr (.vobj [("part", .vobj [])])) }
      ⟨[], "t1", "f1", none, none, none⟩
      = (errResp 400 missingPartMsg, ⟨[], "t1", "f1", none, none, none⟩) ∧
    update_part
      { Event.empty with
        pathParameters := some (.vobj [("uuid", .vstr "u1")]),
        body := some (.jsonStr (.vobj [("part", .vobj [])])) }
      ⟨[], "t1", "f1", none, none, none⟩
      = (errResp 400 missingPartMsg, ⟨[], "t1", "f1", none, none, none⟩) := by
  have h := c10_falsy_part_rejected
    { Event.empty with
      pathParameters := some (.vobj [("uuid", .vstr "u1")]),
      body := some (.jsonStr (.vobj [("part", .vobj [])])) }
    ⟨[], "t1", "f1", none, none, none⟩ [("part", .vobj [])] rfl rfl
  exact ⟨h.1, h.2 (.vstr "u1") rfl rfl⟩

/-- C4 (amended): gateway-style dispatch.  When method extraction succeeds:
a falsy result (no method found under either the flat or the nested shape)
yields 400; the methods GET, POST, PUT, DELETE route to the corresponding
CRUD operation; any other string method yields 405.  When the nested access
raises — `requestContext` (or its `http` member) present but not an object,
e.g. `null` — the handler returns the generic 500, not the 400 the original
claim asserts (see the counterexample). -/
theorem c4_method_dispatch (ev : Event) (db : Db) :
    (∀ v, extract_http_method ev = .ok v → truthy v = false →
       lambda_handler ev db = (errResp 400 "HTTP method not found in event", db)) ∧
    (extract_http_method ev = .ok (.vstr "GET") →
       lambda_handler ev db = get_part ev db) ∧
    (extract_http_method ev = .ok (.vstr "POST") →
       lambda_handler ev db = create_part ev db) ∧
    (extract_http_method ev = .ok (.vstr "PUT") →
       lambda_handler ev db = update_part ev db) ∧
    (extract_http_method ev = .ok (.vstr "DELETE") →
       lambda_handler ev db = delete_part ev db) ∧
    (∀ s, extract_http_method ev = .ok (.vstr s) → s ≠ "" →
       s ≠ "GET" → s ≠ "POST" → s ≠ "PUT" → s ≠ "DELETE" →
       lambda_handler ev db = (errResp 405 ("Method " ++ s ++ " not allowed"), db)) ∧
    (∀ e, extract_http_method ev = .error e →
       lambda_handler ev db = (internalErrorResp, db)) := by
  refine ⟨?_, ?_, ?_, ?_, ?_, ?_, ?_⟩
  · intro v h hv
    simp [lambda_handler, lambda_handler_inner, h, hv]
  · intro h
    simp [lambda_handler, lambda_handler_inner, h, truthy, valEqShallow]
    rw [if_neg (by decide)]
  · intro h
    simp [lambda_handler, lambda_handler_inner, h, truthy, valEqShallow]
    rw [if_neg (by decide)]
  · intro h
    simp [lambda_handler, lambda_handler_inner, h, truthy, valEqShallow]
    rw [if_neg (by decide)]
  · intro h
    simp [lambda_handler, lambda_handler_inner, h, truthy, valEqShallow]
    rw [if_neg (by decide)]
  · intro s h hs h1 h2 h3 h4
    simp [lambda_handler, lambda_handler_inner, h, truthy_vstr_of_ne s hs,
          valEqShallow, pyStr, beq_eq_false_iff_ne.mpr h1, beq_eq_false_iff_ne.mpr h2,
          beq_eq_false_iff_ne.mpr h3, beq_eq_false_iff_ne.mpr h4]
  · intro e h
    simp [lambda_handler, lambda_handler_inner, h]

/-- Witness for C4 (amended): a `PATCH` event yields 405 and a v2-shaped
`GET` event routes to `get_part`. -/
theorem c4_method_dispatch_witness :
    lambda_handler { Event.empty with httpMethod := some (.vstr "PATCH") }
        ⟨[], "t1", "f1", none, none, none⟩
      = (errResp 405 ("Method " ++ "PATCH" ++ " not allowed"),
         ⟨[], "t1", "f1", none, none, none⟩) ∧
    lambda_handler
        { Event.empty with
          requestContext := some (.vobj [("http", .vobj [("method", .vstr "DELETE")])]) }
        ⟨[], "t1", "f1", none, none, none⟩
      = delete_part
          { Event.empty with
            requestContext := some (.vobj [("http", .vobj [("method", .vstr "DELETE")])]) }
          ⟨[], "t1", "f1", none, none, none⟩ := by
  constructor
  · exact (c4_method_dispatch _ _).2.2.2.2.2.1 "PATCH" rfl
      (by decide) (by decide) (by decide) (by decide) (by decide)
  · exact (c4_method_dispatch _ _).2.2.2.2.1 rfl

/-- Counterexample for C4 as stated: the event `{"requestContext": null}`
carries no HTTP method in either location, yet the handler returns the
generic 500 (the nested `.get` chain raises `AttributeError` on `None`),
not the claimed 400. -/
theorem c4_counterexample :
    lambda_handler { Event.empty with requestContext := some .vnull }
        ⟨[], "t1", "f1", none, none, none⟩
      = (internalErrorResp, ⟨[], "t1", "f1", none, none, none⟩) ∧
    internalErrorResp ≠ errResp 400 "HTTP method not found in event" := by
  refine ⟨rfl, ?_⟩
  intro h
  have := congrArg Response.statusCode h
  simp [internalErrorResp, errResp] at this

/-- C7: every exception that is not already translated into a structured
response — a backend `ClientError` from the storage calls or any other
unexpected exception (`PyExc.other`), and for `get_part`/`delete_part`/the
dispatcher any exception at all — is caught at the operation boundary and
becomes exactly `{500, {"error": "Internal server error"}}`: the backend
detail string `m` never appears in the response.  The handlers themselves
are total functions into `Response`, so no exception ever propagates to the
caller. -/
theorem c7_unhandled_exceptions_become_500 (ev : Event) (db : Db) :
    (∀ m db2,
       (create_part_inner ev db = (.error (.clientError m), db2) ∨
        create_part_inner ev db = (.error (.other m), db2)) →
       create_part ev db = (internalErrorResp, db2)) ∧
    (∀ m db2,
       (update_part_inner ev db = (.error (.clientError m), db2) ∨
        update_part_inner ev db = (.error (.other m), db2)) →
       update_part ev db = (internalErrorResp, db2)) ∧
    (∀ e db2, get_part_inner ev db = (.error e, db2) →
       get_part ev db = (internalErrorResp, db2)) ∧
    (∀ e db2, delete_part_inner ev db = (.error e, db2) →
       delete_part ev db = (internalErrorResp, db2)) ∧
    (∀ e db2, lambda_handler_inner ev db = (.error e, db2) →
       lambda_handler ev db = (internalErrorResp, db2)) := by
  refine ⟨?_, ?_, ?_, ?_, ?_⟩
  · intro m db2 h
    rcases h with h | h <;> simp [create_part, h]
  · intro m db2 h
    rcases h with h | h <;> simp [update_part, h]
  · intro e db2 h
    simp [get_part, h]
  · intro e db2 h
    cases e <;> simp [delete_part, h]
  · intro e db2 h
    cases e <;> simp [lambda_handler, h]

/-- Witness for C7: with an injected backend failure carrying the detail
string "backend detail", a GET on an existing key returns the generic 500
and an unchanged state. -/
theorem c7_unhandled_exceptions_become_500_witness :
    get_part
        { Event.empty with pathParameters := some (.vobj [("uuid", .vstr "u1")]) }
        ⟨[], "t1", "f1", some "backend detail", none, none⟩
      = (internalErrorResp, ⟨[], "t1", "f1", some "backend detail", none, none⟩) :=
  (c7_unhandled_exceptions_become_500
      { Event.empty with pathParameters := some (.vobj [("uuid", .vstr "u1")]) }
      ⟨[], "t1", "f1", some "backend detail", none, none⟩).2.2.1
    (.clientError "backend detail") _ rfl

theorem buildClauses_eq_map (validated : List (String × Val)) :
    buildClauses validated = validated.map (fun fv => clauseFor fv.1) := by
  induction validated with
  | nil => rfl
  | cons kv rest ih => simp [buildClauses, ih]

theorem buildNames_eq_filterMap (validated : List (String × Val)) :
    buildNames validated
      = (validated.filter (fun fv => lowerStr fv.1 ∈ reserved_keywords)).map
          (fun fv => ("#" ++ fv.1, fv.1)) := by
  induction validated with
  | nil => rfl
  | cons kv rest ih =>
    obtain ⟨f, v⟩ := kv
    by_cases h : lowerStr f ∈ reserved_keywords
    · simp [buildNames, h, List.filter_cons, ih]
    · simp [buildNames, h, List.filter_cons, ih]

/-- C6 (and the expression the update issues): in `update_part`'s storage
update, the `SET` expression consists of the `updatedAt` clause followed by
one clause per validated field; every field whose lower-cased name is in
the enumerated reserved-keyword list appears only through the `#field`
alias, bound to the field in `ExpressionAttributeNames`, and every other
field is referenced by its literal name (never through an alias). -/
theorem c6_reserved_keyword_aliasing (validated : List (String × Val)) (now : String) :
    (buildUpdateParams validated now).clauses
        = ⟨.raw "updatedAt", ":updated_at"⟩ :: validated.map (fun fv => clauseFor fv.1) ∧
    (buildUpdateParams validated now).names
        = (validated.filter (fun fv => lowerStr fv.1 ∈ reserved_keywords)).map
            (fun fv => ("#" ++ fv.1, fv.1)) ∧
    ∀ f, f ∈ validated.map Prod.fst →
      (lowerStr f ∈ reserved_keywords →
         (⟨.alias ("#" ++ f), ":" ++ f⟩ : UpdClause) ∈ (buildUpdateParams validated now).clauses ∧
         ("#" ++ f, f) ∈ (buildUpdateParams validated now).names ∧
         ∀ c ∈ (buildUpdateParams validated now).clauses, c.target ≠ .raw f) ∧
      (lowerStr f ∉ reserved_keywords →
         (⟨.raw f, ":" ++ f⟩ : UpdClause) ∈ (buildUpdateParams validated now).clauses ∧
         ∀ c ∈ (buildUpdateParams validated now).clauses, c.target ≠ .alias ("#" ++ f)) := by
  refine ⟨by simp [buildUpdateParams, buildClauses_eq_map],
          by simp [buildUpdateParams, buildNames_eq_filterMap], ?_⟩
  intro f hf
  simp only [List.mem_map] at hf
  obtain ⟨fv, hfv, hffst⟩ := hf
  constructor
  · intro hres
    refine ⟨?_, ?_, ?_⟩
    · simp only [buildUpdateParams, buildClauses_eq_map, List.mem_cons, List.mem_map]
      refine Or.inr ⟨fv, hfv, ?_⟩
      simp [clauseFor, hffst, hres]
    · simp only [buildUpdateParams, buildNames_eq_filterMap, List.mem_map]
      refine ⟨fv, ?_, by simp [hffst]⟩
      simp [List.mem_filter, hfv, hffst, hres]
    · intro c hc
      simp only [buildUpdateParams, buildClauses_eq_map, List.mem_cons, List.mem_map] at hc
      rcases hc with rfl | ⟨gv, hgv, rfl⟩
      · intro hraw
        simp only [UpdTarget.raw.injEq] at hraw
        rw [← hraw] at hres
        exact absurd hres (by decide)
      · simp only [clauseFor]
        by_cases hg : lowerStr gv.1 ∈ reserved_keywords
        · simp [hg]
        · simp only [hg, if_false]
          intro hraw
          simp only [UpdTarget.raw.injEq] at hraw
          rw [hraw] at hg
          exact hg hres
  · intro hres
    constructor
    · simp only [buildUpdateParams, buildClauses_eq_map, List.mem_cons, List.mem_map]
      refine Or.inr ⟨fv, hfv, ?_⟩
      simp [clauseFor, hffst, hres]
    · intro c hc
      simp only [buildUpdateParams, buildClauses_eq_map, List.mem_cons, List.mem_map] at hc
      rcases hc with rfl | ⟨gv, hgv, rfl⟩
      · simp
      · simp only [clauseFor]
        by_cases hg : lowerStr gv.1 ∈ reserved_keywords
        · simp only [hg, if_true]
          intro hal
          simp only [UpdTarget.alias.injEq] at hal
          have : gv.1 = f := string_append_cancel_left "#" _ _ hal
          rw [this] at hg
          exact hres hg
        · simp [hg]

/-- Witness for C6: `category` (reserved) is aliased and `customerId`
(not reserved) is referenced literally. -/
theorem c6_reserved_keyword_aliasing_witness :
    ((⟨.alias ("#" ++ "category"), ":" ++ "category"⟩ : UpdClause)
        ∈ (buildUpdateParams [("category", .vstr "c"), ("customerId", .vstr "x")] "t1").clauses ∧
     ("#" ++ "category", "category")
        ∈ (buildUpdateParams [("category", .vstr "c"), ("customerId", .vstr "x")] "t1").names) ∧
    (⟨.raw "customerId", ":" ++ "customerId"⟩ : UpdClause)
        ∈ (buildUpdateParams [("category", .vstr "c"), ("customerId", .vstr "x")] "t1").clauses := by
  have h := c6_reserved_keyword_aliasing [("category", .vstr "c"), ("customerId", .vstr "x")] "t1"
  have hcat := (h.2.2 "category" (by decide)).1 (by decide)
  have hcust := (h.2.2 "customerId" (by decide)).2 (by decide)
  exact ⟨⟨hcat.1, hcat.2.1⟩, hcust.1⟩

/-- A gateway-style event with the given method, a `uuid` path parameter
and an optional `part` body payload. -/
def gwEvent (method u : String) (pd : Option Val) : Event :=
  { httpMethod := some (.vstr method),
    requestContext := none,
    pathParameters := some (.vobj [("uuid", .vstr u)]),
    body := pd.map (fun p => .jsonStr (.vobj [("part", p)])),
    info := none,
    arguments := none }

theorem queryItems_eq_nil_of_all_deleted (db : Db) (u : String)
    (hall : ∀ it ∈ db.items, getVal it "PK" = some (.vstr u) → hasKey it "deletedAt" = true) :
    queryItems db (.vstr u) = [] := by
  apply List.filter_eq_nil_iff.mpr
  intro it hit hcond
  simp only [Bool.and_eq_true] at hcond
  obtain ⟨hpk, hdel⟩ := hcond
  cases hgv : getVal it "PK" with
  | none => rw [hgv] at hpk; simp at hpk
  | some p =>
    rw [hgv] at hpk
    have hp := (valEqShallow_vstr_iff p u).mp hpk
    subst hp
    have := hall it hit hgv
    rw [this] at hdel
    simp at hdel

/-- C3: a soft-deleted record is invisible — when every stored record under
an identifier carries `deletedAt` (and at least one such record physically
exists), Get, Update and Delete on that identifier all return 404 and leave
the store untouched: no success path reads, modifies or re-deletes the
record. -/
theorem c3_soft_deleted_invisible (db : Db) (u : String) (pd : List (String × Val))
    (hall : ∀ it ∈ db.items, getVal it "PK" = some (.vstr u) → hasKey it "deletedAt" = true)
    (_hex : ∃ it ∈ db.items, getVal it "PK" = some (.vstr u) ∧ hasKey it "deletedAt" = true)
    (hq : db.failQuery = none) (hu : u ≠ "") (hpd : pd ≠ []) :
    get_part (gwEvent "GET" u none) db = (errResp 404 "Part not found", db) ∧
    update_part (gwEvent "PUT" u (some (.vobj pd))) db
      = (errResp 404 "Part not found or already deleted", db) ∧
    delete_part (gwEvent "DELETE" u none) db
      = (errResp 404 "Part not found or already deleted", db) := by
  have hnil := queryItems_eq_nil_of_all_deleted db u hall
  have hfetch : get_part_by_uuid db (.vstr u) = .ok none := by
    simp [get_part_by_uuid, tbl_query, hq, hnil]
  have htr : truthy (.vobj pd) = true := by
    simp [truthy_vobj, List.isEmpty_iff, hpd]
  refine ⟨?_, ?_, ?_⟩
  · simp [get_part, get_part_inner, gwEvent, uuidFromPath, pyGet, truthy_vobj,
          getVal, truthy_vstr_of_ne u hu, hfetch]
  · simp [update_part, update_part_inner, gwEvent, uuidFromPath, pyGet, truthy_vobj,
          getVal, truthy_vstr_of_ne u hu, parseBody, htr, hfetch]
  · simp [delete_part, delete_part_inner, gwEvent, uuidFromPath, pyGet, truthy_vobj,
          getVal, truthy_vstr_of_ne u hu, hfetch]

/-- Witness for C3 on a one-record store holding only a soft-deleted part. -/
theorem c3_soft_deleted_invisible_witness :
    get_part (gwEvent "GET" "u1" none)
        ⟨[[("PK", .vstr "u1"), ("SK", .vstr "a1"), ("deletedAt", .vstr "t0")]],
         "t1", "f1", none, none, none⟩
      = (errResp 404 "Part not found",
         ⟨[[("PK", .vstr "u1"), ("SK", .vstr "a1"), ("deletedAt", .vstr "t0")]],
          "t1", "f1", none, none, none⟩) ∧
    update_part (gwEvent "PUT" "u1" (some (.vobj [("category", .vstr "C")])))
        ⟨[[("PK", .vstr "u1"), ("SK", .vstr "a1"), ("deletedAt", .vstr "t0")]],
         "t1", "f1", none, none, none⟩
      = (errResp 404 "Part not found or already deleted",
         ⟨[[("PK", .vstr "u1"), ("SK", .vstr "a1"), ("deletedAt", .vstr "t0")]],
          "t1", "f1", none, none, none⟩) ∧
    delete_part (gwEvent "DELETE" "u1" none)
        ⟨[[("PK", .vstr "u1"), ("SK", .vstr "a1"), ("deletedAt", .vstr "t0")]],
         "t1", "f1", none, none, none⟩
      = (errResp 404 "Part not found or already deleted",
         ⟨[[("PK", .vstr "u1"), ("SK", .vstr "a1"), ("deletedAt", .vstr "t0")]],
          "t1", "f1", none, none, none⟩) := by
  refine c3_soft_deleted_invisible _ "u1" [("category", .vstr "C")] ?_ ?_ rfl
    (by decide) (List.cons_ne_nil _ _)
  · intro it hit hpk
    simp only [List.mem_singleton] at hit
    subst hit; rfl
  · exact ⟨[("PK", .vstr "u1"), ("SK", .vstr "a1"), ("deletedAt", .vstr "t0")],
           by simp, rfl, rfl⟩

/-- C2 fails on the code: evaluating `update_part` at the failing input — an
update whose payload contains `accountId` — succeeds with 200 and
overwrites the stored part's `accountId` attribute (from "a1" to "a2"),
while the storage sort key `SK` keeps the old account "a1"; `createdAt` is
preserved and `updatedAt` is set, but the claim's "accountId is unchanged
no matter which fields the payload contains" is false. -/
theorem c2_accountId_overwritten_eval :
    (update_part (gwEvent "PUT" "u1" (some (.vobj [("accountId", .vstr "a2")])))
        ⟨[[("PK", .vstr "u1"), ("SK", .vstr "a1"), ("createdAt", .vstr "t0"),
           ("accountId", .vstr "a1")]], "t1", "f1", none, none, none⟩).1.statusCode
      = 200 ∧
    (update_part (gwEvent "PUT" "u1" (some (.vobj [("accountId", .vstr "a2")])))
        ⟨[[("PK", .vstr "u1"), ("SK", .vstr "a1"), ("createdAt", .vstr "t0"),
           ("accountId", .vstr "a1")]], "t1", "f1", none, none, none⟩).2.items
      = [[("PK", .vstr "u1"), ("SK", .vstr "a1"), ("createdAt", .vstr "t0"),
          ("accountId", .vstr "a2"), ("updatedAt", .vstr "t1")]] ∧
    Val.vstr "a2" ≠ Val.vstr "a1" := by
  refine ⟨rfl, rfl, ?_⟩
  simp

/-- The managed-API event `{info: {fieldName, parentTypeName}, arguments}`
with the given field name and `uuid` argument. -/
def appsyncEvent (fieldName u : String) : Event :=
  { httpMethod := none,
    requestContext := none,
    pathParameters := none,
    body := none,
    info := some (.vobj [("fieldName", .vstr fieldName),
                         ("parentTypeName", .vstr "Mutation")]),
    arguments := some (.vobj [("uuid", .vstr u)]) }

/-- C1: a managed-API event with field name `deletePart` and arguments
`{uuid: X}`, where `X` identifies an existing, non-soft-deleted part (and
the backend does not fail), produces the raw managed-API success envelope
`{message: "Part deleted successfully", success: true}` — the `.api`
constructor, not a gateway `{statusCode, body}` response. -/
theorem c1_appsync_delete_success (db : Db) (x : String) (it : Item) (sk : Val)
    (hq : db.failQuery = none) (hupd : db.failUpdate = none) (hx : x ≠ "")
    (hit : fetchLive db (.vstr x) = some it)
    (hsk : getVal it "SK" = some sk) :
    (lambda_handler_full (appsyncEvent "deletePart" x) db).1
      = .api (.vobj [("message", .vstr "Part deleted successfully"),
                     ("success", .vbool true)]) := by
  have hfetch : get_part_by_uuid db (.vstr x) = .ok (some it) := by
    simp only [get_part_by_uuid, tbl_query, hq]
    rw [show (queryItems db (.vstr x)).head? = some it from hit]
  simp [lambda_handler_full, is_appsync_event, appsyncEvent, hasKey, getVal,
        parse_appsync_event, valEqShallow, lambda_handler, lambda_handler_inner,
        extract_http_method, truthy_vstr_of_ne "DELETE" (by decide),
        delete_part, delete_part_inner, uuidFromPath,
        pyGet, truthy_vobj, truthy_vstr_of_ne x hx, hfetch, hsk, tbl_update, hupd,
        resolveParams, resolveClauses, resolveClause, format_appsync_response]

/-- Witness for C1 on a one-record store holding a live part. -/
theorem c1_appsync_delete_success_witness :
    (lambda_handler_full (appsyncEvent "deletePart" "X")
        ⟨[[("PK", .vstr "X"), ("SK", .vstr "a1"), ("createdAt", .vstr "t0")]],
         "t1", "f1", none, none, none⟩).1
      = .api (.vobj [("message", .vstr "Part deleted successfully"),
                     ("success", .vbool true)]) :=
  c1_appsync_delete_success
    ⟨[[("PK", .vstr "X"), ("SK", .vstr "a1"), ("createdAt", .vstr "t0")]],
     "t1", "f1", none, none, none⟩
    "X" [("PK", .vstr "X"), ("SK", .vstr "a1"), ("createdAt", .vstr "t0")]
    (.vstr "a1") rfl rfl (by decide) rfl rfl
